import Mathlib

/-!
Shallow embedding of `pymagicc/definitions/__init__.py`: the careful
string-replacement engine and the three mapping builders (regions,
MAGICC7-to-OpenSCM variables, MAGICC6-to-MAGICC7 variables).

Python dictionaries are modelled as insertion-ordered association lists
(`List (String × String)`) with Python assignment semantics: assigning to
an existing key updates the value in place, assigning to a fresh key
appends.  Python string operations (`in`, `replace`, `startswith`,
`endswith`, `upper`, `split`) are modelled character-list based.
-/

set_option maxRecDepth 100000

namespace Pymagicc

/-- Tests whether `p` is a prefix of `s` (character lists). -/
def isPre (p s : List Char) : Bool := s.take p.length == p

/-- Python substring membership `p in s` on character lists. -/
def occursIn (p : List Char) : List Char → Bool
  | [] => p.isEmpty
  | c :: rest => isPre p (c :: rest) || occursIn p rest

/-- Python `needle in hay` for strings (substring test). -/
def pySubstr (needle hay : String) : Bool := occursIn needle.data hay.data

/-- Replacement of all non-overlapping occurrences, left to right, for a
non-empty pattern, with a fuel argument to make the recursion structural;
the algorithm mirrors CPython `str.replace`. -/
def replaceFuel (fuel : Nat) (s old new : List Char) : List Char :=
  match fuel, s with
  | _, [] => []
  | 0, s => s
  | fuel + 1, c :: rest =>
    if isPre old (c :: rest) && !old.isEmpty then
      new ++ replaceFuel fuel ((c :: rest).drop old.length) old new
    else
      c :: replaceFuel fuel rest old new

/-- Replacement of all non-overlapping occurrences of a non-empty pattern:
`s.length` is always enough fuel since every step consumes a character. -/
def replaceNE (s old new : List Char) : List Char := replaceFuel s.length s old new

/-- Python `s.replace(old, new)` on character lists, including the
empty-pattern case (`"ab".replace("", "x") == "xaxbx"`). -/
def pyReplace (s old new : List Char) : List Char :=
  if old.isEmpty then new ++ s.foldr (fun c acc => c :: new ++ acc) []
  else replaceNE s old new

/-- Python `s.replace(old, new)` for strings. -/
def strReplace (s old new : String) : String := ⟨pyReplace s.data old.data new.data⟩

/-- Python `s.upper()` (ASCII input). -/
def pyUpper (s : String) : String := ⟨s.data.map Char.toUpper⟩

/-- Python `s.startswith(pre)`. -/
def pyStartsWith (s pre : String) : Bool := isPre pre.data s.data

/-- Python `s.endswith(suf)`. -/
def pyEndsWith (s suf : String) : Bool := isPre suf.data.reverse s.data.reverse

/-- Python dict assignment `d[k] = v`: update in place when the key exists,
append otherwise. -/
def dinsert : List (String × String) → String → String → List (String × String)
  | [], k, v => [(k, v)]
  | (k0, v0) :: rest, k, v =>
    if k0 = k then (k0, v) :: rest else (k0, v0) :: dinsert rest k v

/-- Python dict lookup `d[k]` (first entry with the key, keys are unique). -/
def dlookup : List (String × String) → String → Option String
  | [], _ => none
  | (k0, v0) :: rest, k => if k = k0 then some v0 else dlookup rest k

/-- Python `d.values()`. -/
def dvalues (l : List (String × String)) : List String := l.map Prod.snd

/-- Python `d.keys()`. -/
def dkeys (l : List (String × String)) : List String := l.map Prod.fst

/-- Python `{v: k for k, v in d.items()}`: inversion of a dict by a
comprehension, so a later key producing an already-seen value overwrites
the stored key (last write wins), at the position of the first occurrence. -/
def invertDict (d : List (String × String)) : List (String × String) :=
  d.foldl (fun acc p => dinsert acc p.2 p.1) []

/-- Edge-case detection of `_replace_from_replacement_dict`: for each key
`r` at position `j` and each key `k` at position at least `j`, if `r` is a
proper substring of `k` then record `edge_cases[k] = r`. -/
def computeEdgeCases : List (String × String) → List String → List (String × String)
  | ec, [] => ec
  | ec, r :: rest =>
    computeEdgeCases
      ((r :: rest).foldl
        (fun acc k => if pySubstr r k && !(r == k) then dinsert acc k r else acc) ec)
      rest

/-- The inner `careful_replacement` of `_replace_from_replacement_dict`:
skip the replacement when `old` is a recorded edge-case substring and some
recorded longer key is present in the current string (and not in `old`). -/
def careful_replacement (edge_cases : List (String × String)) (in_str old new : String) :
    String :=
  if (dvalues edge_cases).contains old
      && edge_cases.any
        (fun p => pySubstr p.1 in_str && pySubstr p.2 old && !(pySubstr p.1 old))
  then in_str
  else strReplace in_str old new

/-- The replacement engine `_replace_from_replacement_dict` on a single
input string: optionally invert the dictionary, compute the edge cases,
then apply every rule once, in dictionary order, via `careful_replacement`. -/
def _replace_from_replacement_dict (inputs : String)
    (replacements : List (String × String)) (inverse : Bool) : String :=
  let reps := if inverse then invertDict replacements else replacements
  let edge_cases := computeEdgeCases [] (dkeys reps)
  reps.foldl (fun acc p => careful_replacement edge_cases acc p.1 p.2) inputs

/-- The hierarchy separator `DATA_HIERARCHY_SEPARATOR`. -/
def DATA_HIERARCHY_SEPARATOR : String := "|"

/-- The inner `get_openscm_replacement` of
`_get_magicc_region_to_openscm_region_mapping`.  Note the Python source
writes `in_region in ("BUNKERS")`, which is a substring test against the
string `"BUNKERS"` (not tuple membership); the model keeps that semantics. -/
def get_openscm_replacement_region (in_region : String) : String :=
  if in_region = "WORLD" ∨ in_region = "GLOBAL" then "World"
  else if pySubstr in_region "BUNKERS" then
    "World" ++ DATA_HIERARCHY_SEPARATOR ++ "Bunkers"
  else if pyStartsWith in_region "NH" || pyStartsWith in_region "SH" then
    let r := strReplace in_region "-" ""
    let hem := if pySubstr "NH" r then "Northern Hemisphere" else "Southern Hemisphere"
    if r = "NH" ∨ r = "SH" then "World" ++ DATA_HIERARCHY_SEPARATOR ++ hem
    else
      let land_ocean := if pySubstr "LAND" r then "Land" else "Ocean"
      "World" ++ DATA_HIERARCHY_SEPARATOR ++ hem ++ DATA_HIERARCHY_SEPARATOR ++ land_ocean
  else "World" ++ DATA_HIERARCHY_SEPARATOR ++ in_region

/-- The fixed enumeration `_magicc_regions`. -/
def _magicc_regions : List String :=
  ["WORLD", "GLOBAL", "OECD90", "ALM", "REF", "ASIA", "R5ASIA", "R5OECD", "R5REF",
   "R5MAF", "R5LAM", "R6OECD90", "R6REF", "R6LAM", "R6MAF", "R6ASIA", "NHOCEAN",
   "SHOCEAN", "NHLAND", "SHLAND", "NH-OCEAN", "SH-OCEAN", "NH-LAND", "SH-LAND",
   "SH", "NH", "BUNKERS"]

/-- `_get_magicc_region_to_openscm_region_mapping`: build the forward
dictionary over the fixed region enumeration, skipping a region whose
image is already a value when building for inversion, and invert at the
end when `inverse`. -/
def _get_magicc_region_to_openscm_region_mapping (inverse : Bool) :
    List (String × String) :=
  let replacements := _magicc_regions.foldl
    (fun acc r =>
      let o := get_openscm_replacement_region r
      if (dvalues acc).contains o && inverse then acc
      else dinsert acc r o)
    []
  if inverse then invertDict replacements else replacements

/-- The module constant `MAGICC_REGION_TO_OPENSCM_REGION_MAPPING`. -/
def MAGICC_REGION_TO_OPENSCM_REGION_MAPPING : List (String × String) :=
  _get_magicc_region_to_openscm_region_mapping false

/-- The module constant `OPENSCM_REGION_TO_MAGICC_REGION_MAPPING`. -/
def OPENSCM_REGION_TO_MAGICC_REGION_MAPPING : List (String × String) :=
  _get_magicc_region_to_openscm_region_mapping true

/-- The fixed case/punctuation correction table `case_adjustments` of
`_get_magicc7_to_openscm_variable_mapping`. -/
def case_adjustments : List (String × String) :=
  [("SOX", "SOx"), ("NOX", "NOx"), ("HFC134A", "HFC134a"), ("HFC143A", "HFC143a"),
   ("HFC152A", "HFC152a"), ("HFC227EA", "HFC227ea"), ("HFC236FA", "HFC236fa"),
   ("HFC245FA", "HFC245fa"), ("HFC365MFC", "HFC365mfc"), ("HCFC141B", "HCFC141b"),
   ("HCFC142B", "HCFC142b"), ("CH3CCL3", "CH3CCl3"), ("CCL4", "CCl4"),
   ("CH3CL", "CH3Cl"), ("CH2CL2", "CH2Cl2"), ("CHCL3", "CHCl3"), ("CH3BR", "CH3Br"),
   ("HALON1211", "Halon1211"), ("HALON1301", "Halon1301"), ("HALON2402", "Halon2402"),
   ("HALON1202", "Halon1202"), ("SOLAR", "Solar"), ("VOLCANIC", "Volcanic")]

/-- Python `s[:-1]`. -/
def strDropLast (s : String) : String := ⟨s.data.dropLast⟩

/-- Python `s.split("_")[0]`. -/
def splitFirstUnderscore (s : String) : String :=
  ⟨s.data.takeWhile (fun c => !(c == '_'))⟩

/-- The suffix dispatch of the inner `get_openscm_replacement` of
`_get_magicc7_to_openscm_variable_mapping`: the quantity prefix selected by
the four known suffixes, `none` when no suffix matches. -/
def quantityPfx (in_var : String) : Option String :=
  if pyEndsWith in_var "_EMIS" then some "Emissions"
  else if pyEndsWith in_var "_CONC" then some "Atmospheric Concentrations"
  else if pyEndsWith in_var "_RF" then some "Radiative Forcing"
  else if pyEndsWith in_var "_OT" then some "Optical Thickness"
  else none

/-- The error message of the `raise ValueError` in the suffix dispatch. -/
def value_error_message : String :=
  "This shouldn" ++ String.singleton (Char.ofNat 39) ++ "t happen"

/-- The successful-path value computation of the inner
`get_openscm_replacement` of `_get_magicc7_to_openscm_variable_mapping`,
given the quantity prefix already selected: strip the suffix, append the
Fossil-and-Industrial or AFOLU hierarchy level for a trailing `I`/`B`
(with the two `HCFC14xB` exceptions), run the case-adjustment table
through the replacement engine, and prepend the quantity prefix. -/
def openscm_var_value (pfx in_var : String) : String :=
  let v := splitFirstUnderscore in_var
  let edge_case_B := pyUpper v == "HCFC141B" || pyUpper v == "HCFC142B"
  let v1 :=
    if pyEndsWith v "I" then
      strDropLast v ++ DATA_HIERARCHY_SEPARATOR ++ "MAGICC Fossil and Industrial"
    else if pyEndsWith v "B" && !edge_case_B then
      strDropLast v ++ DATA_HIERARCHY_SEPARATOR ++ "MAGICC AFOLU"
    else v
  let v2 := _replace_from_replacement_dict v1 case_adjustments false
  pfx ++ DATA_HIERARCHY_SEPARATOR ++ v2

/-- The inner `get_openscm_replacement` of
`_get_magicc7_to_openscm_variable_mapping`: fails (Python
`raise ValueError`) when the variable code carries none of the four known
suffixes. -/
def get_openscm_replacement_var (in_var : String) : Except String String :=
  match quantityPfx in_var with
  | none => Except.error value_error_message
  | some pfx => Except.ok (openscm_var_value pfx in_var)

/-- The image of a variable code on the successful path, as a total
function (unused when the suffix dispatch fails). -/
def varImage (in_var : String) : String :=
  match quantityPfx in_var with
  | none => ""
  | some pfx => openscm_var_value pfx in_var

/-- The fixed suffix list `magicc7_suffixes`. -/
def magicc7_suffixes : List String := ["_EMIS", "_CONC", "_RF", "_OT"]

/-- The code list `magicc7_vars` generated from a catalog of base names:
every base name (catalog plus the synthetic `SOLAR` and `VOLCANIC`)
combined with every suffix, bases outermost. -/
def magicc7_vars (catalog : List String) : List String :=
  (catalog ++ ["SOLAR", "VOLCANIC"]).foldr
    (fun b acc => (magicc7_suffixes.map (fun suf => b ++ suf)) ++ acc) []

/-- The dictionary comprehension
`{m7v: get_openscm_replacement(m7v) for m7v in magicc7_vars}`: entries are
inserted in order and the first failing code aborts the whole construction
(Python raises out of the comprehension, returning nothing). -/
def buildCodeReplacements :
    List String → List (String × String) → Except String (List (String × String))
  | [], acc => Except.ok acc
  | c :: rest, acc =>
    match get_openscm_replacement_var c with
    | Except.error e => Except.error e
    | Except.ok r => buildCodeReplacements rest (dinsert acc c r)

/-- Python `"{0:03d}".format(i)` for the ocean temperature layer keys. -/
def pad3 (i : Nat) : String :=
  if i < 10 then "00" ++ toString i
  else if i < 100 then "0" ++ toString i
  else toString i

/-- The fixed updates applied after the comprehension: surface
temperature, the three aggregated ocean heat content depths, the heat
content total, and ocean temperature layers 1 to 998 (`range(1, 999)`),
three-digit zero-padded in the key and unpadded in the name. -/
def finishReps (reps0 : List (String × String)) : List (String × String) :=
  (List.range' 1 998).foldl
    (fun acc i => dinsert acc ("OCEAN_TEMP_LAYER_" ++ pad3 i)
      ("Ocean Temperature" ++ DATA_HIERARCHY_SEPARATOR ++ "Layer " ++ toString i))
    (dinsert
      ((List.range' 1 3).foldl
        (fun acc i => dinsert acc ("HEATCONTENT_AGGREG_DEPTH" ++ toString i)
          ("Aggregated Ocean Heat Content" ++ DATA_HIERARCHY_SEPARATOR ++ "Depth "
            ++ toString i))
        (dinsert reps0 "SURFACE_TEMP" "Surface Temperature"))
      "HEATCONTENT_AGGREG_TOTAL" "Aggregated Ocean Heat Content")

/-- `_get_magicc7_to_openscm_variable_mapping`: the comprehension over the
generated codes (failing fast on an unknown suffix), the fixed updates,
and the final inversion when `inverse`. -/
def _get_magicc7_to_openscm_variable_mapping (catalog : List String) (inverse : Bool) :
    Except String (List (String × String)) :=
  match buildCodeReplacements (magicc7_vars catalog) [] with
  | Except.error e => Except.error e
  | Except.ok reps0 =>
    Except.ok (if inverse then invertDict (finishReps reps0) else finishReps reps0)

/-- The fixed enumeration `magicc6_vars`. -/
def magicc6_vars : List String :=
  ["FossilCO2", "OtherCO2", "SOx", "NOx", "HFC43-10", "HFC-43-10", "HFC134a",
   "HFC143a", "HFC227ea", "HFC245fa", "CFC-11", "CFC-12", "CFC-113", "CFC-114",
   "CFC-115", "CCl4", "CH3CCl3", "HCFC-22", "HFC-23", "HFC-32", "HFC-125",
   "HFC-134a", "HFC-143a", "HCFC-141b", "HCFC-142b", "HFC-227ea", "HFC-245ca",
   "Halon 1211", "Halon 1202", "Halon 1301", "Halon 2402", "Halon1211",
   "Halon1202", "Halon1301", "Halon2402", "CH3Br", "CH3Cl"]

/-- The special-case override table of
`_get_magicc6_to_magicc7_variable_mapping`. -/
def special_case_replacements : List (String × String) :=
  [("FossilCO2", "CO2I"), ("OtherCO2", "CO2B"), ("HFC-245ca", "HFC245FA")]

/-- The default normalization rule of
`_get_magicc6_to_magicc7_variable_mapping`:
`m6v.replace("-", "").replace(" ", "").upper()`. -/
def m6_default_norm (s : String) : String :=
  pyUpper (strReplace (strReplace s "-" "") " " "")

/-- `_get_magicc6_to_magicc7_variable_mapping`: special cases are taken from
the override table unconditionally; otherwise the default normalization is
used, and when building for inversion a name whose image is already a value
is skipped.  When `inverse`, the accumulated dictionary is inverted. -/
def _get_magicc6_to_magicc7_variable_mapping (inverse : Bool) :
    List (String × String) :=
  let replacements := magicc6_vars.foldl
    (fun acc m6v =>
      match dlookup special_case_replacements m6v with
      | some v => dinsert acc m6v v
      | none =>
        let m7v := m6_default_norm m6v
        if (dvalues acc).contains m7v && inverse then acc
        else dinsert acc m6v m7v)
    []
  if inverse then invertDict replacements else replacements

/-- The forward image of a single legacy MAGICC6 name, as computed inside
`_get_magicc6_to_magicc7_variable_mapping`: the special-case table when it
applies, the default normalization otherwise. -/
def m6_image (m6v : String) : String :=
  match dlookup special_case_replacements m6v with
  | some v => v
  | none => m6_default_norm m6v

/-- The module constant `MAGICC6_TO_MAGICC7_VARIABLES_MAPPING`. -/
def MAGICC6_TO_MAGICC7_VARIABLES_MAPPING : List (String × String) :=
  _get_magicc6_to_magicc7_variable_mapping false

/-- The module constant `MAGICC7_TO_MAGICC6_VARIABLES_MAPPING`. -/
def MAGICC7_TO_MAGICC6_VARIABLES_MAPPING : List (String × String) :=
  _get_magicc6_to_magicc7_variable_mapping true

/-- Equality decision for `Except`, needed to state concrete results of the
fallible mapping construction. -/
instance {m n : Type} [DecidableEq m] [DecidableEq n] : DecidableEq (Except m n) :=
  fun a b =>
    match a, b with
    | Except.error x, Except.error y => decidable_of_iff (x = y) (by simp)
    | Except.error _, Except.ok _ => isFalse (by simp)
    | Except.ok _, Except.error _ => isFalse (by simp)
    | Except.ok x, Except.ok y => decidable_of_iff (x = y) (by simp)

/-- Looking up the key just assigned returns the new value; any other key
is unaffected by the assignment. -/
theorem dlookup_dinsert (l : List (String × String)) (k v k' : String) :
    dlookup (dinsert l k v) k' = if k' = k then some v else dlookup l k' := by
  induction l with
  | nil => simp [dinsert, dlookup]
  | cons p rest ih =>
    obtain ⟨k0, v0⟩ := p
    by_cases h0 : k0 = k
    · subst h0
      by_cases h1 : k' = k0 <;> simp [dinsert, dlookup, h1]
    · by_cases h1 : k' = k0
      · subst h1
        simp [dinsert, dlookup, h0, Ne.symm h0]
      · simp [dinsert, dlookup, h0, h1, ih]

/-- A fold of keyed assignments whose keys all differ from `k` leaves the
lookup of `k` unchanged. -/
theorem dlookup_foldl_dinsert_ne {α : Type} (key val : α → String) (xs : List α)
    (init : List (String × String)) (k : String) (h : ∀ x ∈ xs, key x ≠ k) :
    dlookup (xs.foldl (fun acc x => dinsert acc (key x) (val x)) init) k
      = dlookup init k := by
  induction xs generalizing init with
  | nil => rfl
  | cons x rest ih =>
    simp only [List.foldl_cons]
    rw [ih _ (fun y hy => h y (List.mem_cons_of_mem _ hy)), dlookup_dinsert,
      if_neg (fun hk => h x (List.mem_cons_self x rest) hk.symm)]

/-- A fold of keyed assignments looks up to the value of the last
assignment to `k` when every later key differs from `k`. -/
theorem dlookup_foldl_dinsert_found {α : Type} (key val : α → String)
    (l1 l2 : List α) (x : α) (init : List (String × String)) (k : String)
    (hx : key x = k) (h2 : ∀ y ∈ l2, key y ≠ k) :
    dlookup ((l1 ++ x :: l2).foldl (fun acc y => dinsert acc (key y) (val y)) init) k
      = some (val x) := by
  rw [List.foldl_append]
  simp only [List.foldl_cons]
  rw [dlookup_foldl_dinsert_ne key val l2 _ k h2, dlookup_dinsert, if_pos hx.symm]

/-- A fold of keyed assignments realizes last-write-wins: the lookup of
`k` is the value of the last element whose key is `k`, and falls back to
the initial dictionary when no element has key `k`. -/
theorem dlookup_foldl_dinsert_eq_find {α : Type} (key val : α → String)
    (xs : List α) (init : List (String × String)) (k : String) :
    dlookup (xs.foldl (fun acc x => dinsert acc (key x) (val x)) init) k
      = match xs.reverse.find? (fun x => key x == k) with
        | some x => some (val x)
        | none => dlookup init k := by
  induction xs generalizing init with
  | nil => rfl
  | cons x rest ih =>
    simp only [List.foldl_cons, List.reverse_cons]
    rw [ih, List.find?_append]
    rcases hf : rest.reverse.find? (fun y => key y == k) with _ | y
    · simp only [Option.or]
      rcases hkx : (key x == k) with _ | _
      · rw [List.find?_singleton, if_neg (by rw [hkx]; exact Bool.false_ne_true),
          dlookup_dinsert, if_neg (fun hh => (ne_of_beq_false hkx) hh.symm)]
      · rw [List.find?_singleton, if_pos hkx, dlookup_dinsert,
          if_pos (eq_of_beq hkx).symm]
    · simp only [Option.or]

/-- The Python inversion comprehension realizes last-write-wins: the
inverted dictionary sends a value to the last key of the original
dictionary that maps to it. -/
theorem dlookup_invertDict (d : List (String × String)) (v : String) :
    dlookup (invertDict d) v
      = Option.map Prod.fst (d.reverse.find? (fun p => p.2 == v)) := by
  have h := dlookup_foldl_dinsert_eq_find Prod.snd Prod.fst d [] v
  rcases hf : d.reverse.find? (fun p => p.2 == v) with _ | p
  · rw [hf] at h ⊢
    simpa [dlookup] using h
  · rw [hf] at h ⊢
    simpa using h

/-- The empty pattern occurs in every string. -/
theorem occursIn_nil (s : List Char) : occursIn [] s = true := by
  cases s with
  | nil => rfl
  | cons c rest => simp [occursIn, isPre]

/-- A non-occurring pattern decomposes: it is neither a prefix nor occurs
in the tail. -/
theorem occursIn_cons_false {p : List Char} {c : Char} {rest : List Char}
    (h : occursIn p (c :: rest) = false) :
    isPre p (c :: rest) = false ∧ occursIn p rest = false := by
  simpa [occursIn] using h

/-- Replacing a pattern that does not occur leaves the character list
unchanged, whatever the fuel. -/
theorem replaceFuel_of_not_occurs (fuel : Nat) (s old new : List Char)
    (h : occursIn old s = false) : replaceFuel fuel s old new = s := by
  induction fuel generalizing s with
  | zero => cases s <;> rfl
  | succ fuel ih =>
    cases s with
    | nil => rfl
    | cons c rest =>
      obtain ⟨h1, h2⟩ := occursIn_cons_false h
      simp only [replaceFuel, h1, Bool.false_and, Bool.false_eq_true, if_false]
      rw [ih rest h2]

/-- Python `str.replace` with a pattern that does not occur in the string
is the identity. -/
theorem strReplace_of_not_occurs (s old new : String) (h : pySubstr old s = false) :
    strReplace s old new = s := by
  unfold strReplace pyReplace
  rcases hol : old.data.isEmpty with _ | _
  · rw [if_neg Bool.false_ne_true]
    unfold replaceNE
    rw [replaceFuel_of_not_occurs _ _ _ _ h]
  · exfalso
    have : old.data = [] := by
      cases hd : old.data with
      | nil => rfl
      | cons c r => rw [hd] at hol; simp [List.isEmpty] at hol
    unfold pySubstr at h
    rw [this, occursIn_nil] at h
    cases h

/-- `careful_replacement` with a rule whose old token does not occur is
the identity: either the edge-case guard fires, or the replacement finds
nothing. -/
theorem careful_replacement_of_not_occurs (ec : List (String × String))
    (s old new : String) (h : pySubstr old s = false) :
    careful_replacement ec s old new = s := by
  unfold careful_replacement
  split
  · rfl
  · exact strReplace_of_not_occurs s old new h

/-- Applying rules none of whose old tokens occur leaves the string
unchanged. -/
theorem foldl_careful_replacement_of_not_occurs (ec reps : List (String × String))
    (s : String) (h : ∀ p ∈ reps, pySubstr p.1 s = false) :
    reps.foldl (fun acc p => careful_replacement ec acc p.1 p.2) s = s := by
  induction reps with
  | nil => rfl
  | cons p rest ih =>
    simp only [List.foldl_cons]
    rw [careful_replacement_of_not_occurs ec s p.1 p.2 (h p (List.mem_cons_self p rest))]
    exact ih (fun q hq => h q (List.mem_cons_of_mem _ hq))

/-- When every generated code passes the suffix dispatch, the
comprehension succeeds and is the fold of the keyed insertions of each
code's image. -/
theorem buildCodeReplacements_ok (codes : List String)
    (acc : List (String × String)) (h : ∀ c ∈ codes, (quantityPfx c).isSome) :
    buildCodeReplacements codes acc
      = Except.ok (codes.foldl (fun a c => dinsert a c (varImage c)) acc) := by
  induction codes generalizing acc with
  | nil => rfl
  | cons c rest ih =>
    have hc : (quantityPfx c).isSome := h c (List.mem_cons_self c rest)
    rcases hqc : quantityPfx c with _ | pfx
    · rw [hqc] at hc; cases hc
    · simp only [buildCodeReplacements, get_openscm_replacement_var, hqc,
        List.foldl_cons, varImage]
      exact ih _ (fun d hd => h d (List.mem_cons_of_mem _ hd))

/-- When some code fails the suffix dispatch, the comprehension raises
(the first failing code aborts it) and no dictionary is produced. -/
theorem buildCodeReplacements_error (codes : List String)
    (acc : List (String × String))
    (h : codes.any (fun c => (quantityPfx c).isNone) = true) :
    buildCodeReplacements codes acc = Except.error value_error_message := by
  induction codes generalizing acc with
  | nil => cases h
  | cons c rest ih =>
    rcases hqc : quantityPfx c with _ | pfx
    · simp only [buildCodeReplacements, get_openscm_replacement_var, hqc]
    · simp only [buildCodeReplacements, get_openscm_replacement_var, hqc]
      apply ih
      simp only [List.any_cons, hqc] at h
      simpa using h

/-- An ocean-temperature-layer key is at least 17 characters long, so it
differs from any shorter key. -/
theorem layer_key_ne_short (i : Nat) {k : String} (hlen : k.length < 17) :
    ("OCEAN_TEMP_LAYER_" ++ pad3 i) ≠ k := by
  intro heq
  have hl := congrArg String.length heq
  rw [String.length_append] at hl
  have h17 : ("OCEAN_TEMP_LAYER_" : String).length = 17 := rfl
  rw [h17] at hl
  omega

/-- A heat-content-depth key is at least 24 characters long, so it differs
from any shorter key. -/
theorem depth_key_ne_short (i : Nat) {k : String} (hlen : k.length < 17) :
    ("HEATCONTENT_AGGREG_DEPTH" ++ toString i) ≠ k := by
  intro heq
  have hl := congrArg String.length heq
  rw [String.length_append] at hl
  have h24 : ("HEATCONTENT_AGGREG_DEPTH" : String).length = 24 := rfl
  rw [h24] at hl
  omega

/-- A key shorter than 17 characters differs from the 24-character
heat-content-total key. -/
theorem total_key_ne_short {k : String} (hlen : k.length < 17) :
    k ≠ "HEATCONTENT_AGGREG_TOTAL" := by
  intro heq
  rw [heq] at hlen
  exact absurd hlen (by decide)

/-- The fixed updates do not disturb the lookup of a key shorter than 17
characters other than the surface-temperature key. -/
theorem dlookup_finishReps_of_short (reps0 : List (String × String)) (k : String)
    (hlen : k.length < 17) (hst : k ≠ "SURFACE_TEMP") :
    dlookup (finishReps reps0) k = dlookup reps0 k := by
  unfold finishReps
  rw [dlookup_foldl_dinsert_ne (fun i => "OCEAN_TEMP_LAYER_" ++ pad3 i)
      (fun i => "Ocean Temperature" ++ DATA_HIERARCHY_SEPARATOR ++ "Layer " ++ toString i)
      (List.range' 1 998) _ k (fun i _ => layer_key_ne_short i hlen)]
  rw [dlookup_dinsert, if_neg (total_key_ne_short hlen)]
  rw [dlookup_foldl_dinsert_ne (fun i => "HEATCONTENT_AGGREG_DEPTH" ++ toString i)
      (fun i => "Aggregated Ocean Heat Content" ++ DATA_HIERARCHY_SEPARATOR ++ "Depth "
        ++ toString i)
      (List.range' 1 3) _ k (fun i _ => depth_key_ne_short i hlen)]
  rw [dlookup_dinsert, if_neg hst]

/-- Layers 8 through 998 carry keys distinct from the layer-007 key. -/
theorem layer_keys_ne_007 :
    ∀ y ∈ List.range' 8 991,
      ("OCEAN_TEMP_LAYER_" ++ pad3 y) ≠ "OCEAN_TEMP_LAYER_007" := by
  have e : List.range' 8 991
      = List.range' 8 200 ++ (List.range' 208 200 ++ (List.range' 408 200
        ++ (List.range' 608 200 ++ List.range' 808 191))) := by decide
  rw [e, List.forall_mem_append, List.forall_mem_append, List.forall_mem_append,
    List.forall_mem_append]
  exact ⟨by decide, by decide, by decide, by decide, by decide⟩

/-- The ocean-temperature-layer key 007 looks up to layer 7, whatever the
dictionary the fixed updates extend. -/
theorem dlookup_finishReps_layer007 (reps0 : List (String × String)) :
    dlookup (finishReps reps0) "OCEAN_TEMP_LAYER_007"
      = some ("Ocean Temperature" ++ DATA_HIERARCHY_SEPARATOR ++ "Layer "
          ++ toString 7) := by
  unfold finishReps
  rw [show List.range' 1 998 = List.range' 1 6 ++ 7 :: List.range' 8 991 from by decide]
  exact dlookup_foldl_dinsert_found
    (fun i => "OCEAN_TEMP_LAYER_" ++ pad3 i)
    (fun i => "Ocean Temperature" ++ DATA_HIERARCHY_SEPARATOR ++ "Layer " ++ toString i)
    (List.range' 1 6) (List.range' 8 991) 7 _ "OCEAN_TEMP_LAYER_007"
    (by decide) layer_keys_ne_007

/-- C1: for the replacement dictionary mapping OC to oc and NMVOC to nmvoc
(in that key order), applying the replacement engine to the single input
string NMVOC returns nmvoc, and never the partially replaced NMVoc or
nmvOC. -/
theorem C1_substring_safety :
    _replace_from_replacement_dict "NMVOC" [("OC", "oc"), ("NMVOC", "nmvoc")] false
        = "nmvoc"
      ∧ _replace_from_replacement_dict "NMVOC" [("OC", "oc"), ("NMVOC", "nmvoc")] false
        ≠ "NMVoc"
      ∧ _replace_from_replacement_dict "NMVOC" [("OC", "oc"), ("NMVOC", "nmvoc")] false
        ≠ "nmvOC" :=
  ⟨by decide, by decide, by decide⟩

/-- C2 counterexample: in the dictionary mapping a to x and b to x (two
keys sharing the value x), the inversion performed by the replacement
engine maps the value x to the last-seen key b, not the first-seen key a,
and the engine applied to the input x accordingly returns b. -/
theorem C2_counterexample :
    dlookup (invertDict [("a", "x"), ("b", "x")]) "x" = some "b"
      ∧ dlookup (invertDict [("a", "x"), ("b", "x")]) "x" ≠ some "a"
      ∧ _replace_from_replacement_dict "x" [("a", "x"), ("b", "x")] true = "b" :=
  ⟨by decide, by decide, by decide⟩

/-- C2 amended: the replacement engine with the inverse flag applies the
inversion of the dictionary, and that inversion is last-write-wins: every
value maps back to the last key in the original key order that produces
it. -/
theorem C2_inversion_last_seen_wins (d : List (String × String)) (s v : String) :
    _replace_from_replacement_dict s d true
        = _replace_from_replacement_dict s (invertDict d) false
      ∧ dlookup (invertDict d) v
        = Option.map Prod.fst (d.reverse.find? (fun p => p.2 == v)) :=
  ⟨rfl, dlookup_invertDict d v⟩

/-- C3 counterexample: the enumerated legacy names HFC245fa (via the
default normalization) and HFC-245ca (via the special-case table, listed
later) both map to HFC245FA, yet the inverse build maps HFC245FA back to
HFC-245ca, not to the first-listed HFC245fa, and HFC-245ca is not dropped
from the inverse. -/
theorem C3_counterexample :
    dlookup MAGICC6_TO_MAGICC7_VARIABLES_MAPPING "HFC245fa" = some "HFC245FA"
      ∧ dlookup MAGICC6_TO_MAGICC7_VARIABLES_MAPPING "HFC-245ca" = some "HFC245FA"
      ∧ List.indexOf "HFC245fa" magicc6_vars < List.indexOf "HFC-245ca" magicc6_vars
      ∧ dlookup MAGICC7_TO_MAGICC6_VARIABLES_MAPPING "HFC245FA" = some "HFC-245ca"
      ∧ dlookup MAGICC7_TO_MAGICC6_VARIABLES_MAPPING "HFC245FA" ≠ some "HFC245fa"
      ∧ (dvalues MAGICC7_TO_MAGICC6_VARIABLES_MAPPING).contains "HFC-245ca" = true :=
  ⟨by decide, by decide, by decide, by decide, by decide, by decide⟩

/-- C3 amended: for every pair of distinct enumerated legacy names that
share a MAGICC7 code and both map via the default normalization rule, the
inverse build maps the code back to the first-listed name, the later
duplicate stays in the forward build, and the later duplicate is dropped
from the inverse; but a later duplicate mapping via the special-case
override table is not dropped, and wins the inverse slot (the code
HFC245FA maps back to the special-case key HFC-245ca). -/
theorem C3_inverse_first_listed_for_default_rule :
    List.Pairwise
        (fun a b =>
          dlookup special_case_replacements a = none →
          dlookup special_case_replacements b = none →
          m6_image a = m6_image b →
            dlookup MAGICC7_TO_MAGICC6_VARIABLES_MAPPING (m6_image a) = some a
              ∧ dlookup MAGICC6_TO_MAGICC7_VARIABLES_MAPPING b = some (m6_image b)
              ∧ (dvalues MAGICC7_TO_MAGICC6_VARIABLES_MAPPING).contains b = false)
        magicc6_vars
      ∧ dlookup MAGICC7_TO_MAGICC6_VARIABLES_MAPPING "HFC245FA" = some "HFC-245ca" :=
  ⟨by decide, by decide⟩

/-- C4 counterexample: the inverse legacy-variable build maps HFC4310 back
to HFC43-10 (the first-listed spelling), not to HFC-43-10 as claimed. -/
theorem C4_counterexample :
    dlookup MAGICC7_TO_MAGICC6_VARIABLES_MAPPING "HFC4310" ≠ some "HFC-43-10" := by
  decide

/-- C4 amended: both legacy spellings HFC43-10 and HFC-43-10 map forward
to HFC4310, and the inverse build maps HFC4310 back to exactly HFC43-10,
the first-listed spelling (the build is a pure function of the fixed
enumeration, hence identical across repeated builds). -/
theorem C4_hfc4310_inverse :
    dlookup MAGICC7_TO_MAGICC6_VARIABLES_MAPPING "HFC4310" = some "HFC43-10"
      ∧ dlookup MAGICC6_TO_MAGICC7_VARIABLES_MAPPING "HFC43-10" = some "HFC4310"
      ∧ dlookup MAGICC6_TO_MAGICC7_VARIABLES_MAPPING "HFC-43-10" = some "HFC4310" :=
  ⟨by decide, by decide, by decide⟩

/-- C5: for every enumerated legacy name whose MAGICC7 image is unique
among the enumeration, looking the image up in the forward build and then
looking that code up in the inverse build returns the original name. -/
theorem C5_round_trip_unique_image :
    ∀ x ∈ magicc6_vars,
      magicc6_vars.countP (fun y => m6_image y == m6_image x) = 1 →
      Option.bind (dlookup MAGICC6_TO_MAGICC7_VARIABLES_MAPPING x)
        (fun c => dlookup MAGICC7_TO_MAGICC6_VARIABLES_MAPPING c) = some x := by
  decide

/-- C5 witness: the legacy name SOx has the unique image SOX, and the
round trip through the forward and inverse builds returns SOx. -/
theorem C5_round_trip_unique_image_witness :
    Option.bind (dlookup MAGICC6_TO_MAGICC7_VARIABLES_MAPPING "SOx")
      (fun c => dlookup MAGICC7_TO_MAGICC6_VARIABLES_MAPPING c) = some "SOx" :=
  C5_round_trip_unique_image "SOx" (by decide) (by decide)

/-- C8: the forward region mapping sends NH-OCEAN to
World-Northern Hemisphere-Ocean, SH to World-Southern Hemisphere, BUNKERS
to World-Bunkers and GLOBAL to World, and every other enumerated region
code that is none of WORLD, GLOBAL, BUNKERS and does not start with NH or
SH maps to World joined with the code verbatim. -/
theorem C8_region_mapping :
    dlookup MAGICC_REGION_TO_OPENSCM_REGION_MAPPING "NH-OCEAN"
        = some "World|Northern Hemisphere|Ocean"
      ∧ dlookup MAGICC_REGION_TO_OPENSCM_REGION_MAPPING "SH"
        = some "World|Southern Hemisphere"
      ∧ dlookup MAGICC_REGION_TO_OPENSCM_REGION_MAPPING "BUNKERS"
        = some "World|Bunkers"
      ∧ dlookup MAGICC_REGION_TO_OPENSCM_REGION_MAPPING "GLOBAL" = some "World"
      ∧ ∀ r ∈ _magicc_regions,
          r ≠ "WORLD" → r ≠ "GLOBAL" → r ≠ "BUNKERS" →
          pyStartsWith r "NH" = false → pyStartsWith r "SH" = false →
          dlookup MAGICC_REGION_TO_OPENSCM_REGION_MAPPING r
            = some ("World" ++ DATA_HIERARCHY_SEPARATOR ++ r) :=
  ⟨by decide, by decide, by decide, by decide, by decide⟩

/-- C8 witness: the enumerated code OECD90 matches none of the special
rules and maps to World-OECD90. -/
theorem C8_region_mapping_witness :
    dlookup MAGICC_REGION_TO_OPENSCM_REGION_MAPPING "OECD90"
      = some ("World" ++ DATA_HIERARCHY_SEPARATOR ++ "OECD90") :=
  C8_region_mapping.2.2.2.2 "OECD90" (by decide) (by decide) (by decide) (by decide)
    (by decide) (by decide)

/-- C9: for every replacement dictionary, every inverse flag and every
single input string in which no effective rule key occurs as a substring,
the replacement engine returns the string unchanged: unknown tokens are a
silent no-op, never an error. -/
theorem C9_unmapped_token_no_op (replacements : List (String × String))
    (inverse : Bool) (s : String)
    (h : ∀ p ∈ (if inverse then invertDict replacements else replacements),
      pySubstr p.1 s = false) :
    _replace_from_replacement_dict s replacements inverse = s :=
  foldl_careful_replacement_of_not_occurs _ _ s h

/-- C9 witness: the token UNKNOWN_TOKEN matches no rule of the dictionary
mapping A to B, and passes through the engine unchanged. -/
theorem C9_unmapped_token_no_op_witness :
    _replace_from_replacement_dict "UNKNOWN_TOKEN" [("A", "B")] false
      = "UNKNOWN_TOKEN" :=
  C9_unmapped_token_no_op [("A", "B")] false "UNKNOWN_TOKEN" (by decide)

/-- C7: whenever the code list processed by the mapping-construction
comprehension contains a code ending with none of the four known suffixes,
the construction fails with the ValueError of the suffix dispatch and
returns no partial dictionary. -/
theorem C7_unknown_suffix_fatal (codes : List String) (acc : List (String × String))
    (h : codes.any (fun c => (quantityPfx c).isNone) = true) :
    buildCodeReplacements codes acc = Except.error value_error_message :=
  buildCodeReplacements_error codes acc h

/-- C7 witness: one code lacking every known suffix makes the
comprehension fail. -/
theorem C7_unknown_suffix_fatal_witness :
    buildCodeReplacements ["CO2I_FOO"] [] = Except.error value_error_message :=
  C7_unknown_suffix_fatal ["CO2I_FOO"] [] (by decide)

/-- C10 counterexample: in the dictionary mapping N to X, OC to oc and
NMVOC to nmvoc, the short key OC is a proper substring of the later key
NMVOC, and the input OC NMVOC contains NMVOC; yet the standalone OC does
not survive: the engine returns oc XMVoc, because the earlier rule for N
rewrites NMVOC to XMVOC before the OC rule is consulted, so the skip guard
does not fire and OC is replaced everywhere. -/
theorem C10_counterexample :
    pySubstr "OC" "NMVOC" = true
      ∧ pySubstr "NMVOC" "OC NMVOC" = true
      ∧ _replace_from_replacement_dict "OC NMVOC"
          [("N", "X"), ("OC", "oc"), ("NMVOC", "nmvoc")] false = "oc XMVoc"
      ∧ pySubstr "OC" (_replace_from_replacement_dict "OC NMVOC"
          [("N", "X"), ("OC", "oc"), ("NMVOC", "nmvoc")] false) = false :=
  ⟨by decide, by decide, by decide, by decide⟩

/-- The skip does not generalize to dictionaries with several short keys
under one longer key: with OC to oc, C to c, NMVOC to nmvoc, the single
edge-case slot for NMVOC is overwritten from OC to C, so OC is no longer a
recorded edge-case value, the skip never fires for the OC rule, and on
OC NMVOC every OC is replaced, yielding oc NMVoc, although NMVOC is
present when the OC rule runs and no earlier rule rewrote the string. -/
theorem C10_edge_case_overwrite :
    computeEdgeCases [] (dkeys [("OC", "oc"), ("C", "c"), ("NMVOC", "nmvoc")])
        = [("NMVOC", "C")]
      ∧ _replace_from_replacement_dict "OC NMVOC"
          [("OC", "oc"), ("C", "c"), ("NMVOC", "nmvoc")] false = "oc NMVoc" :=
  ⟨by decide, by decide⟩

/-- C10 amended: for the two-rule dictionary mapping OC to oc and NMVOC to
nmvoc (the short key OC a proper substring of the later key NMVOC), on
every input containing NMVOC (with this dictionary the OC rule runs first,
so NMVOC is still present when it is consulted), the OC rule is skipped
for the entire string and the result is exactly the replacement of NMVOC
by nmvoc; standalone occurrences of OC stay unreplaced because each rule
is applied exactly once. -/
theorem C10_short_rule_skipped (s : String) (h : pySubstr "NMVOC" s = true) :
    _replace_from_replacement_dict s [("OC", "oc"), ("NMVOC", "nmvoc")] false
      = strReplace s "NMVOC" "nmvoc" := by
  have h1 : careful_replacement [("NMVOC", "OC")] s "OC" "oc" = s := by
    unfold careful_replacement
    rw [if_pos]
    rw [show (dvalues [("NMVOC", "OC")]).contains "OC" = true from by decide,
      Bool.true_and, List.any_cons, List.any_nil, Bool.or_false]
    rw [show pySubstr ("NMVOC", "OC").1 s = true from h]
    decide
  have h2 : careful_replacement [("NMVOC", "OC")] s "NMVOC" "nmvoc"
      = strReplace s "NMVOC" "nmvoc" := by
    unfold careful_replacement
    rw [if_neg]
    rw [show (dvalues [("NMVOC", "OC")]).contains "NMVOC" = false from by decide,
      Bool.false_and]
    exact Bool.false_ne_true
  calc _replace_from_replacement_dict s [("OC", "oc"), ("NMVOC", "nmvoc")] false
      = careful_replacement [("NMVOC", "OC")]
          (careful_replacement [("NMVOC", "OC")] s "OC" "oc") "NMVOC" "nmvoc" := rfl
    _ = careful_replacement [("NMVOC", "OC")] s "NMVOC" "nmvoc" := by rw [h1]
    _ = strReplace s "NMVOC" "nmvoc" := h2

/-- C10 amended witness: the input OC NMVOC contains NMVOC, and the engine
returns OC nmvoc, with the standalone OC unreplaced. -/
theorem C10_short_rule_skipped_witness :
    _replace_from_replacement_dict "OC NMVOC" [("OC", "oc"), ("NMVOC", "nmvoc")] false
      = "OC nmvoc" :=
  (C10_short_rule_skipped "OC NMVOC" (by decide)).trans (by decide)

/-- C6: in the forward MAGICC7-to-OpenSCM variable mapping built from the
catalog of base names CO2I and SOX, the key CO2I_EMIS maps to
Emissions-CO2-MAGICC Fossil and Industrial, the key SOX_RF maps to
Radiative Forcing-SOx, and the fixed key OCEAN_TEMP_LAYER_007 maps to
Ocean Temperature-Layer 7 (three-digit zero-padded key, unpadded integer
in the name). -/
theorem C6_variable_canonicalization :
    (_get_magicc7_to_openscm_variable_mapping ["CO2I", "SOX"] false).map
        (fun m => (dlookup m "CO2I_EMIS", dlookup m "SOX_RF",
          dlookup m "OCEAN_TEMP_LAYER_007"))
      = Except.ok (some "Emissions|CO2|MAGICC Fossil and Industrial",
          some "Radiative Forcing|SOx", some "Ocean Temperature|Layer 7") := by
  have hcodes : magicc7_vars ["CO2I", "SOX"]
      = ["CO2I_EMIS", "CO2I_CONC", "CO2I_RF", "CO2I_OT",
         "SOX_EMIS", "SOX_CONC", "SOX_RF", "SOX_OT",
         "SOLAR_EMIS", "SOLAR_CONC", "SOLAR_RF", "SOLAR_OT",
         "VOLCANIC_EMIS", "VOLCANIC_CONC", "VOLCANIC_RF", "VOLCANIC_OT"] := by decide
  have hok := buildCodeReplacements_ok (magicc7_vars ["CO2I", "SOX"]) []
    (by rw [hcodes]; decide)
  rw [hcodes] at hok
  have hmap : _get_magicc7_to_openscm_variable_mapping ["CO2I", "SOX"] false
      = Except.ok (finishReps (List.foldl (fun a c => dinsert a c (varImage c)) []
          ["CO2I_EMIS", "CO2I_CONC", "CO2I_RF", "CO2I_OT",
           "SOX_EMIS", "SOX_CONC", "SOX_RF", "SOX_OT",
           "SOLAR_EMIS", "SOLAR_CONC", "SOLAR_RF", "SOLAR_OT",
           "VOLCANIC_EMIS", "VOLCANIC_CONC", "VOLCANIC_RF", "VOLCANIC_OT"])) := by
    unfold _get_magicc7_to_openscm_variable_mapping
    rw [hcodes, hok]
    rfl
  rw [hmap]
  simp only [Except.map]
  rw [dlookup_finishReps_of_short _ "CO2I_EMIS" (by decide) (by decide)]
  rw [dlookup_finishReps_of_short _ "SOX_RF" (by decide) (by decide)]
  rw [dlookup_finishReps_layer007]
  have hco2i := dlookup_foldl_dinsert_found (fun c => c) varImage []
    ["CO2I_CONC", "CO2I_RF", "CO2I_OT", "SOX_EMIS", "SOX_CONC", "SOX_RF", "SOX_OT",
     "SOLAR_EMIS", "SOLAR_CONC", "SOLAR_RF", "SOLAR_OT", "VOLCANIC_EMIS",
     "VOLCANIC_CONC", "VOLCANIC_RF", "VOLCANIC_OT"]
    "CO2I_EMIS" [] "CO2I_EMIS" rfl (by decide)
  simp only [List.nil_append] at hco2i
  rw [hco2i]
  have hsox := dlookup_foldl_dinsert_found (fun c => c) varImage
    ["CO2I_EMIS", "CO2I_CONC", "CO2I_RF", "CO2I_OT", "SOX_EMIS", "SOX_CONC"]
    ["SOX_OT", "SOLAR_EMIS", "SOLAR_CONC", "SOLAR_RF", "SOLAR_OT", "VOLCANIC_EMIS",
     "VOLCANIC_CONC", "VOLCANIC_RF", "VOLCANIC_OT"]
    "SOX_RF" [] "SOX_RF" rfl (by decide)
  simp only [List.cons_append, List.nil_append] at hsox
  rw [hsox]
  rw [show varImage "CO2I_EMIS" = "Emissions|CO2|MAGICC Fossil and Industrial"
    from by decide]
  rw [show varImage "SOX_RF" = "Radiative Forcing|SOx" from by decide]
  rw [show ("Ocean Temperature" ++ DATA_HIERARCHY_SEPARATOR ++ "Layer " ++ toString 7)
    = "Ocean Temperature|Layer 7" from by decide]

end Pymagicc
